import Mathlib

/-!
Verification of the Aventra backend itinerary pipeline (src/server.js and the
unnamed server variants).

The development shallowly embeds the core of the pipeline:

* a model of JSON-like JavaScript values (`JVal`) as produced by
  `JSON.parse`, with JS truthiness and property access; reading a property
  of `null`/`undefined` throws in JS, which the embedding models with
  `Except Unit`;
* the data sanitization functions `sanitizeTime`, `sanitizeString`,
  `sanitizeCost`, `getDefaultActivity`, `sanitizeAIItinerary`
  (src/server.js lines 551-697), the mock generator
  `generateHighQualityMockItinerary` (lines 757-812) and the
  AI-or-mock decision logic of the `/api/generate-itinerary` route
  (lines 1962-2019);
* the sliding-window rate limiter (lines 42-60);
* the photo pipeline: the result merge/dedup/shuffle/truncate step and the
  call planning of `fetchPhotosForDestination` (lines 191-244) and the
  candidate loop of `getActivityPhotos` (lines 247-289).

Modelling conventions, noted where they matter:
* JS numbers are modelled as ℚ (finite values; NaN/Infinity are outside the
  model).  `Math.floor` is `ratFloor`, `Math.round` is `jsRound`
  (floor of x + 1/2, the JS behaviour for finite values).
* Each potential `Math.random()` draw is an explicit parameter
  (`r`, or an indexed source `rng`), quantified in the theorems.
* Dates: the server is modelled as running with a UTC clock, so
  `new Date("YYYY-MM-DD" + "T00:00:00")` followed by `toISOString()`
  round-trips through the proleptic Gregorian calendar; dates are day
  numbers counted from 0000-03-01 and converted with the standard
  civil-from-days / days-from-civil algorithms.  The date-string parser is
  modelled for strict `YYYY-MM-DD` input (the shape the route receives);
  any other shape is treated as unparsable, which the code turns into
  "use the current date".
* String helpers (lower-casing, trimming, slicing) are implemented over
  `List Char` so that closed terms reduce inside the kernel; they agree
  with the JS behaviour on the ASCII strings the pipeline manipulates.
-/

/-- Model of a JavaScript/JSON value.  `undefined` is the result of reading an
absent property; `JSON.parse` itself never produces it. -/
inductive JVal where
  | null : JVal
  | undefined : JVal
  | bool : Bool → JVal
  | num : ℚ → JVal
  | str : String → JVal
  | arr : List JVal → JVal
  | obj : List (String × JVal) → JVal

/-- JS truthiness of a value (NaN is outside the numeric model). -/
def truthy : JVal → Bool
  | .null => false
  | .undefined => false
  | .bool b => b
  | .num q => !(q == 0)
  | .str s => !(s == "")
  | .arr _ => true
  | .obj _ => true

/-- Reading a property of `null` or `undefined` throws a TypeError in JS. -/
def isNullish : JVal → Bool
  | .null => true
  | .undefined => true
  | _ => false

/-- Object property lookup; later duplicate keys win, as in `JSON.parse`. -/
def lookupField (fields : List (String × JVal)) (key : String) : JVal :=
  fields.foldl (fun acc kv => if kv.1 == key then kv.2 else acc) .undefined

/-- Property access `v.key` for a value that is not `null`/`undefined`
(the nullish case is handled by the callers, modelling the JS throw).
Non-object values have none of the properties this pipeline reads. -/
def jsGetV : JVal → String → JVal
  | .obj fields, key => lookupField fields key
  | _, _ => .undefined

/-- Numeric value of an ASCII digit character. -/
def dv (c : Char) : ℕ := c.toNat - 48

/-- Value of a digit run, as `parseInt` computes it. -/
def natOfDigits (cs : List Char) : ℕ := cs.foldl (fun a c => a * 10 + dv c) 0

/-- Char-list test used to mirror `String.prototype.includes`. -/
def prefixOfChars : List Char → List Char → Bool
  | [], _ => true
  | _ :: _, [] => false
  | a :: as, b :: bs => a == b && prefixOfChars as bs

/-- Substring search over char lists. -/
def hasSubChars (needle : List Char) : List Char → Bool
  | [] => prefixOfChars needle []
  | b :: bs => prefixOfChars needle (b :: bs) || hasSubChars needle bs

/-- `hay.includes(needle)` on strings. -/
def hasSub (hay needle : String) : Bool := hasSubChars needle.toList hay.toList

/-- ASCII lower-casing, mirroring `toLowerCase` on the strings in play. -/
def lowerStr (s : String) : String := String.mk (s.toList.map Char.toLower)

/-- Whitespace trimming over char lists, mirroring `String.prototype.trim`. -/
def trimChars (cs : List Char) : List Char :=
  ((cs.dropWhile Char.isWhitespace).reverse.dropWhile Char.isWhitespace).reverse

/-- `s.trim()`. -/
def jsTrim (s : String) : String := String.mk (trimChars s.toList)

/-- Gregorian leap-year test. -/
def isLeapYear (y : ℕ) : Bool := (y % 4 == 0 && y % 100 != 0) || y % 400 == 0

/-- Number of days in a month of the Gregorian calendar. -/
def daysInMonth (y m : ℕ) : ℕ :=
  if m == 2 then (if isLeapYear y then 29 else 28)
  else if m == 4 || m == 6 || m == 9 || m == 11 then 30
  else 31

/-- Day number of a Gregorian date, counted from 0000-03-01 (valid for
years ≥ 1, the range accepted by the date parser below). -/
def daysFromCivil (y m d : ℕ) : ℕ :=
  let y2 := if m ≤ 2 then y - 1 else y
  let era := y2 / 400
  let yoe := y2 % 400
  let mp := (m + 9) % 12
  let doy := (153 * mp + 2) / 5 + d - 1
  let doe := yoe * 365 + yoe / 4 - yoe / 100 + doy
  era * 146097 + doe

/-- Gregorian date (year, month, day) of a day number counted from
0000-03-01; inverse of `daysFromCivil`. -/
def civilFromDays (z : ℕ) : ℕ × ℕ × ℕ :=
  let era := z / 146097
  let doe := z % 146097
  let yoe := (doe - doe / 1460 + doe / 36524 - doe / 146096) / 365
  let y2 := yoe + era * 400
  let doy := doe - (365 * yoe + yoe / 4 - yoe / 100)
  let mp := (5 * doy + 2) / 153
  let d := doy - (153 * mp + 2) / 5 + 1
  let m := if mp < 10 then mp + 3 else mp - 9
  (if m ≤ 2 then y2 + 1 else y2, m, d)

/-- Two-digit zero padding, as `padStart(2, "0")` produces for n ≤ 99. -/
def pad2 (n : ℕ) : String := if n < 10 then "0" ++ toString n else toString n

/-- Four-digit zero padding for the year of an ISO date string. -/
def pad4 (n : ℕ) : String :=
  if n < 10 then "000" ++ toString n
  else if n < 100 then "00" ++ toString n
  else if n < 1000 then "0" ++ toString n
  else toString n

/-- The date part of `toISOString()` for a day number. -/
def formatCivil (z : ℕ) : String :=
  let c := civilFromDays z
  pad4 c.1 ++ "-" ++ pad2 c.2.1 ++ "-" ++ pad2 c.2.2

/-- Split a char list at every dash, mirroring `"y-m-d"` decomposition. -/
def splitDash : List Char → List (List Char)
  | [] => [[]]
  | c :: rest =>
    match splitDash rest with
    | [] => [[]]
    | seg :: segs => if c == '-' then [] :: seg :: segs else (c :: seg) :: segs

/-- Parse of a strict `YYYY-MM-DD` date string into a day number; `none`
models an invalid date (`new Date(...)` producing `Invalid Date`). -/
def parseDateISO (s : String) : Option ℕ :=
  match splitDash s.toList with
  | [ys, ms, ds] =>
    if ys.length == 4 && ms.length == 2 && ds.length == 2
        && ys.all Char.isDigit && ms.all Char.isDigit && ds.all Char.isDigit then
      let y := natOfDigits ys
      let m := natOfDigits ms
      let d := natOfDigits ds
      if 1 ≤ y && 1 ≤ m && m ≤ 12 && 1 ≤ d && d ≤ daysInMonth y m then
        some (daysFromCivil y m d)
      else none
    else none
  | _ => none

/-- `Math.floor` on the rational model of JS numbers. -/
def ratFloor (q : ℚ) : ℤ := q.num / q.den

/-- `Math.round` on finite values: floor of x + 1/2. -/
def jsRound (q : ℚ) : ℤ := ratFloor (q + 1 / 2)

/-- Rate limiter configuration, src/server.js lines 43-45. -/
def rlMaxRequests : ℕ := 15

/-- Sliding window length in milliseconds, src/server.js line 45. -/
def rlWindowMs : ℤ := 60000

/-- `rateLimiter.isAllowed` (src/server.js lines 47-59).  The requests map
is modelled as a total function from user id to timestamp list (a missing
key reads as `[]`, matching `this.requests.get(userId) || []`); the result
is the returned boolean together with the updated map. -/
def rlIsAllowed (requests : String → List ℤ) (userId : String) (now : ℤ) :
    Bool × (String → List ℤ) :=
  let userRequests := requests userId
  let validRequests := userRequests.filter (fun t => now - t < rlWindowMs)
  if rlMaxRequests ≤ validRequests.length then
    (false, requests)
  else
    (true, fun u => if u = userId then validRequests ++ [now] else requests u)

/-- One attempt of the regex `(\d{1,2}):(\d{2})` at a fixed position,
greedy two-digit hour first. -/
def matchTwo : List Char → Option (ℕ × ℕ)
  | a :: b :: c :: d :: e :: _ =>
    if a.isDigit && b.isDigit && c == ':' && d.isDigit && e.isDigit then
      some (dv a * 10 + dv b, dv d * 10 + dv e)
    else none
  | _ => none

/-- Backtracked one-digit-hour attempt of the same regex. -/
def matchOne : List Char → Option (ℕ × ℕ)
  | a :: c :: d :: e :: _ =>
    if a.isDigit && c == ':' && d.isDigit && e.isDigit then
      some (dv a, dv d * 10 + dv e)
    else none
  | _ => none

/-- First match of `(\d{1,2}):(\d{2})` scanning left to right, returning
the parsed hour and minute captures. -/
def timeScan : List Char → Option (ℕ × ℕ)
  | [] => none
  | c :: rest =>
    match matchTwo (c :: rest) with
    | some r => some r
    | none =>
      match matchOne (c :: rest) with
      | some r => some r
      | none => timeScan rest

/-- `sanitizeTime` (src/server.js lines 551-562): `null` for non-strings,
otherwise the first embedded `h:mm`/`hh:mm` with hour ≤ 23 and minute ≤ 59,
re-rendered zero-padded; `null` when no valid match exists. -/
def sanitizeTime (v : JVal) : Option String :=
  match v with
  | .str s =>
    if s == "" then none
    else
      match timeScan s.toList with
      | some (h, m) =>
        if h ≤ 23 && m ≤ 59 then some (pad2 h ++ ":" ++ pad2 m) else none
      | none => none
  | _ => none

/-- `sanitizeString` (src/server.js lines 564-567): `null` for falsy or
non-string input, otherwise trim and cut to 200 characters. -/
def sanitizeString (v : JVal) : Option String :=
  match v with
  | .str s => if s == "" then none else some (String.mk ((trimChars s.toList).take 200))
  | _ => none

/-- The JS `x || d` fallback applied to an optional sanitized string
(an empty trimmed string is falsy and also falls back). -/
def jsOrString (o : Option String) (d : String) : String :=
  match o with
  | some s => if s == "" then d else s
  | none => d

/-- First run of digits in a string, as `cost.match(/(\d+)/)` captures. -/
def firstNat : List Char → Option ℕ
  | [] => none
  | c :: rest =>
    if c.isDigit then some (natOfDigits (c :: rest.takeWhile Char.isDigit))
    else firstNat rest

/-- `sanitizeCost` (src/server.js lines 569-592).  `r` is the value of the
single potential `Math.random()` draw of the call. -/
def sanitizeCost (cost : JVal) (mult : ℚ) (r : ℚ) : ℤ :=
  match cost with
  | .num q => max 0 (jsRound (q * mult))
  | .str s =>
    let lower := lowerStr s
    if hasSub lower "free" || hasSub lower "no cost" || lower == "0" then 0
    else
      match firstNat s.toList with
      | some n => max 0 (jsRound ((n : ℚ) * mult))
      | none =>
        if hasSub lower "variable" || hasSub lower "varies" then
          ratFloor (r * 50 * mult) + 10
        else ratFloor (r * 30 * mult) + 15
  | _ => ratFloor (r * 30 * mult) + 15

/-- The interest-keyed default-activity table (src/server.js lines 595-602). -/
def defaultActivityTable (interest : String) : Option (List String) :=
  if interest == "Culture" then
    some ["Visit local museum", "Explore historic district", "Cultural center visit"]
  else if interest == "Food" then
    some ["Try local cuisine", "Food market visit", "Cooking experience"]
  else if interest == "Nature" then
    some ["Park visit", "Nature walk", "Scenic viewpoint"]
  else if interest == "Adventure" then
    some ["Local hiking", "Adventure activity", "Outdoor exploration"]
  else if interest == "History" then
    some ["Historical site", "Monument visit", "Heritage tour"]
  else if interest == "Art" then
    some ["Art gallery", "Street art tour", "Creative workshop"]
  else none

/-- The generic fallback activities (src/server.js line 612). -/
def genericActivities : List String :=
  ["Explore local area", "Visit popular attraction", "Cultural experience", "Local exploration"]

/-- `getDefaultActivity` (src/server.js lines 594-613).  A string interest
list indexes single characters, which never match a table key; objects
carrying a numeric `length` are outside the model (the route always passes
an array). -/
def getDefaultActivity (interests : JVal) (index : ℕ) : String :=
  match interests with
  | .arr l =>
    if 0 < l.length then
      match (l.get? (index % l.length)).getD .undefined with
      | .str s =>
        match defaultActivityTable s with
        | some acts => acts.getD (index % acts.length) ""
        | none => genericActivities.getD (index % 4) ""
      | _ => genericActivities.getD (index % 4) ""
    else genericActivities.getD (index % 4) ""
  | _ => genericActivities.getD (index % 4) ""

/-- A sanitized activity slot. -/
structure SActivity where
  time : String
  activity : String
  location : String
  duration : String
  cost : ℤ
  notes : String
deriving DecidableEq

/-- A sanitized day plan. -/
structure SDay where
  date : String
  activities : List SActivity
deriving DecidableEq

/-- A sanitized itinerary. -/
structure Itin where
  days : List SDay
deriving DecidableEq

/-- The generated fallback time: the template literal with `9 + index * 2`
interpolated, with no zero padding. -/
def fallbackTime (idx : ℕ) : String := toString (9 + idx * 2) ++ ":00"

/-- Sanitization of one raw activity entry (src/server.js lines 660-671);
reading `.time` of a `null` entry throws, modelled by `Except.error`. -/
def sanitizeActivity (destination : String) (mult : ℚ) (r : ℚ) (idx : ℕ)
    (a : JVal) : Except Unit SActivity :=
  if isNullish a then .error ()
  else
    .ok
      { time := jsOrString (sanitizeTime (jsGetV a "time")) (fallbackTime idx)
        activity := jsOrString (sanitizeString (jsGetV a "activity")) "Explore local area"
        location := jsOrString (sanitizeString (jsGetV a "location")) (destination ++ " - City Center")
        duration := jsOrString (sanitizeString (jsGetV a "duration")) "2 hours"
        cost := sanitizeCost (jsGetV a "cost") mult r
        notes := jsOrString (sanitizeString (jsGetV a "notes")) "Enjoy this activity!" }

/-- The `forEach` over a raw activities array, pushing sanitized slots in
order; `rd` supplies the potential random draw of each slot. -/
def sanitizeActs (destination : String) (mult : ℚ) (rd : ℕ → ℚ) :
    ℕ → List JVal → Except Unit (List SActivity)
  | _, [] => .ok []
  | idx, a :: rest =>
    match sanitizeActivity destination mult (rd idx) idx a with
    | .error e => .error e
    | .ok s =>
      match sanitizeActs destination mult rd (idx + 1) rest with
      | .error e => .error e
      | .ok others => .ok (s :: others)

/-- A synthetic padding activity (src/server.js lines 678-685). -/
def defaultSlot (destination : String) (interests : JVal) (mult : ℚ)
    (rd : ℕ → ℚ) (k : ℕ) : SActivity :=
  { time := fallbackTime k
    activity := getDefaultActivity interests k
    location := destination ++ " - Popular Area"
    duration := "2 hours"
    cost := ratFloor (rd k * 30 * mult) + 10
    notes := "Explore and enjoy!" }

/-- One bounded pass of the `while (length < minActivities) push` loop;
`fuel` only bounds the iteration count and is chosen large enough that the
loop always reaches its exit condition. -/
def padLoop (mk : ℕ → SActivity) (minA : ℕ) : ℕ → List SActivity → List SActivity
  | 0, acts => acts
  | fuel + 1, acts =>
    if acts.length < minA then padLoop mk minA fuel (acts ++ [mk acts.length])
    else acts

/-- The padding loop of src/server.js lines 676-686. -/
def padTo (mk : ℕ → SActivity) (minA : ℕ) (acts : List SActivity) : List SActivity :=
  padLoop mk minA minA acts

/-- Minimum activities per day by pace (src/server.js line 675). -/
def minForPace (pace : String) : ℕ :=
  if pace == "relaxed" then 2 else if pace == "active" then 4 else 3

/-- The budget multiplier of the sanitizer (src/server.js line 625). -/
def budgetMult (budget : String) : ℚ :=
  if budget == "budget" then 1 / 2 else if budget == "luxury" then 2 else 1

/-- `aiData.days[i] || { activities: [] }` (src/server.js line 656). -/
def dayAt (ds : List JVal) (i : ℕ) : JVal :=
  let v := (ds.get? i).getD .undefined
  if truthy v then v else .obj [("activities", .arr [])]

/-- The raw activity entries the sanitizer iterates for day `i`: the
`activities` property when it is an array, nothing otherwise
(src/server.js line 659). -/
def rawActsOf (ds : List JVal) (i : ℕ) : List JVal :=
  match jsGetV (dayAt ds i) "activities" with
  | .arr as => as
  | _ => []

/-- The start day used by the sanitizer: the parsed start date string, or
the current day for an absent, empty or unparsable string
(src/server.js lines 629-643). -/
def startDayOf (s? : Option String) (nowDay : ℕ) : ℕ :=
  match s? with
  | some s => if s == "" then nowDay else (parseDateISO s).getD nowDay
  | none => nowDay

/-- The body of the per-day loop of `sanitizeAIItinerary`
(src/server.js lines 648-693). -/
def buildDay (destination : String) (interests : JVal) (mult : ℚ) (pace : String)
    (rng : ℕ → ℕ → ℚ) (startDay : ℕ) (ds : List JVal) (i : ℕ) : Except Unit SDay :=
  match sanitizeActs destination mult (rng i) 0 (rawActsOf ds i) with
  | .error e => .error e
  | .ok sActs =>
    .ok
      { date := formatCivil (startDay + i)
        activities := padTo (defaultSlot destination interests mult (rng i)) (minForPace pace) sActs }

/-- The per-day loop, building days `i, i+1, …, i+k-1` in order. -/
def buildDays (destination : String) (interests : JVal) (mult : ℚ) (pace : String)
    (rng : ℕ → ℕ → ℚ) (startDay : ℕ) (ds : List JVal) :
    ℕ → ℕ → Except Unit (List SDay)
  | 0, _ => .ok []
  | k + 1, i =>
    match buildDay destination interests mult pace rng startDay ds i with
    | .error e => .error e
    | .ok d =>
      match buildDays destination interests mult pace rng startDay ds k (i + 1) with
      | .error e => .error e
      | .ok rest => .ok (d :: rest)

/-- `sanitizeAIItinerary` (src/server.js lines 615-697).  The function
returns `.ok none` exactly where the JS returns `null`, `.error ()` where
the JS throws, and `.ok (some it)` where it returns an itinerary.
`nowDay` is the current date, `rng day slot` the potential random draw of
one activity slot; the unused end-date argument of the JS signature is
kept for shape. -/
def sanitizeAIItinerary (aiData : JVal) (destination : String) (expectedDays : ℕ)
    (budget : String) (interests : JVal) (pace : String)
    (startDateStr _endDateStr : Option String) (nowDay : ℕ) (rng : ℕ → ℕ → ℚ) :
    Except Unit (Option Itin) :=
  if !truthy aiData then .ok none
  else
    match jsGetV aiData "days" with
    | .arr ds =>
      match buildDays destination interests (budgetMult budget) pace rng
          (startDayOf startDateStr nowDay) ds expectedDays 0 with
      | .error e => .error e
      | .ok l => .ok (some ⟨l⟩)
    | _ => .ok none

/-- The budget multiplier of the mock generator (src/server.js line 761). -/
def mockMult (budget : String) : ℚ :=
  if budget == "budget" then 3 / 5 else if budget == "luxury" then 5 / 2 else 1

/-- Activities per day by pace in the mock generator (src/server.js line 762). -/
def actsPerDay (pace : String) : ℕ :=
  if pace == "relaxed" then 2 else if pace == "active" then 4 else 3

/-- One mock activity slot (src/server.js lines 789-801). -/
def mockActivity (destination : String) (interests : JVal) (pace : String)
    (mult : ℚ) (j : ℕ) : SActivity :=
  { time := pad2 (9 + j * 2) ++ ":00"
    activity := getDefaultActivity interests j
    location := destination ++ " - " ++
      (["Downtown", "Cultural District", "Popular Area", "Scenic Area"].getD (j % 4) "")
    duration := if pace == "relaxed" then "3 hours"
      else if pace == "active" then "1.5 hours" else "2 hours"
    cost := jsRound ((20 + j * 15 : ℚ) * mult)
    notes := "Check opening hours and enjoy!" }

/-- One mock day (src/server.js lines 782-807). -/
def mockDay (destination : String) (interests : JVal) (pace : String)
    (mult : ℚ) (startDay : ℕ) (i : ℕ) : SDay :=
  { date := formatCivil (startDay + i)
    activities := (List.range (actsPerDay pace)).map (mockActivity destination interests pace mult) }

/-- `generateHighQualityMockItinerary` (src/server.js lines 757-812). -/
def mockItinerary (destination : String) (days : ℕ) (interests : JVal)
    (budget pace : String) (startDateStr : Option String) (nowDay : ℕ) : Itin :=
  ⟨(List.range days).map (mockDay destination interests pace (mockMult budget)
      (startDayOf startDateStr nowDay))⟩

/-- The AI-or-mock decision of the `/api/generate-itinerary` route after a
generative response has been parsed (src/server.js lines 1974-2014,
photo-free path): a sanitizer result that is null, throws, or has no days
falls back to the mock generator. -/
def routeGenerateItinerary (aiItinerary : JVal) (destination : String) (days : ℕ)
    (interests : JVal) (budget pace : String) (startDateStr : Option String)
    (nowDay : ℕ) (rng : ℕ → ℕ → ℚ) : Itin :=
  match sanitizeAIItinerary aiItinerary destination days budget interests pace
      startDateStr none nowDay rng with
  | .ok (some it) =>
    if 0 < it.days.length then it
    else mockItinerary destination days interests budget pace startDateStr nowDay
  | _ => mockItinerary destination days interests budget pace startDateStr nowDay

/-- A normalized photo record; the claims only inspect `url`, the other
fields stand for the provider-specific metadata. -/
structure Photo where
  id : ℕ
  url : String
  source : String
deriving DecidableEq

/-- The merge of the settled per-call results, keeping photos with a
truthy `url` (src/server.js lines 226-229); rejected promises contribute
nothing and are modelled as absent from `results`. -/
def mergedPhotos (results : List (List Photo)) : List Photo :=
  results.flatten.filter (fun p => !(p.url == ""))

/-- `Array.prototype.filter` with the element index, as used by the URL
dedup step. -/
def filterWithIdx (f : ℕ → Photo → Bool) : ℕ → List Photo → List Photo
  | _, [] => []
  | n, p :: rest =>
    if f n p then p :: filterWithIdx f (n + 1) rest else filterWithIdx f (n + 1) rest

/-- The dedup step (src/server.js lines 232-234): keep an element iff its
index equals the first index holding its URL. -/
def dedupByUrl (l : List Photo) : List Photo :=
  filterWithIdx (fun i p => l.findIdx (fun q => q.url == p.url) == i) 0 l

/-- The result assembly of `fetchPhotosForDestination`
(src/server.js lines 226-238): merge, dedup by URL, shuffle, cap at
`count`.  The shuffle (`sort(() => Math.random() - 0.5)`) is an arbitrary
permutation, passed as a parameter. -/
def resolvePhotos (shuffle : List Photo → List Photo)
    (results : List (List Photo)) (count : ℕ) : List Photo :=
  (shuffle (dedupByUrl (mergedPhotos results))).take count

/-- Which photo providers hold credentials. -/
structure PhotoCfg where
  unsplash : Bool
  pexels : Bool
  pixabay : Bool

/-- One planned provider call: provider, query, and the per_page count
passed to the provider fetcher. -/
structure PlannedCall where
  provider : String
  query : String
  countArg : ℕ
deriving DecidableEq

/-- The query-variant list of `fetchPhotosForDestination`
(src/server.js lines 197-202). -/
def searchQueriesFor (destination : String) (activityType : Option String) : List String :=
  let query := match activityType with
    | some t => destination ++ " " ++ t
    | none => destination
  [query, destination, destination ++ " travel", destination ++ " tourism"]

/-- Ceiling division on ℕ, used to state the claimed per-call split. -/
def ceilDiv (a b : ℕ) : ℕ := (a + b - 1) / b

/-- The provider calls `fetchPhotosForDestination` dispatches
(src/server.js lines 204-220): every call requests `Math.ceil(count / 3)`
photos, with the constant divisor 3 written in the source. -/
def planPhotoCalls (cfg : PhotoCfg) (destination : String)
    (activityType : Option String) (count : ℕ) : List PlannedCall :=
  let qs := searchQueriesFor destination activityType
  let per := (count + 2) / 3
  (if cfg.unsplash then
    [⟨"unsplash", qs.getD 0 "", per⟩, ⟨"unsplash", qs.getD 1 "", per⟩] else []) ++
  (if cfg.pexels then [⟨"pexels", qs.getD 0 "", per⟩] else []) ++
  (if cfg.pixabay then [⟨"pixabay", qs.getD 0 "", per⟩] else [])

/-- The number of distinct query variants actually tried in one
resolution, the quantity named by the claimed `ceil(count / v)` split. -/
def variantsTried (cfg : PhotoCfg) (destination : String)
    (activityType : Option String) (count : ℕ) : ℕ :=
  ((planPhotoCalls cfg destination activityType count).map (fun c => c.query)).dedup.length

/-- The activity-type keyword table of `getActivityPhotos`
(src/server.js lines 250-267). -/
def activityTypeOf (activity : String) : String :=
  let a := lowerStr activity
  if hasSub a "museum" || hasSub a "gallery" then "museum"
  else if hasSub a "temple" || hasSub a "shrine" || hasSub a "church" then "temple"
  else if hasSub a "market" || hasSub a "shopping" then "market"
  else if hasSub a "park" || hasSub a "garden" then "park"
  else if hasSub a "restaurant" || hasSub a "food" || hasSub a "dining" then "food"
  else if hasSub a "beach" then "beach"
  else if hasSub a "mountain" || hasSub a "hiking" then "mountain"
  else ""

/-- The ordered, blank-filtered candidate query list of
`getActivityPhotos` (src/server.js lines 270-275); the location hint is
optional, the other three entries are template strings. -/
def activityQueryCandidates (destination activity : String)
    (location : Option String) : List String :=
  [location, some (destination ++ " " ++ activityTypeOf activity),
      some (destination ++ " " ++ activity), some destination].filterMap
    (fun o =>
      match o with
      | some q => if jsTrim q == "" then none else some q
      | none => none)

/-- The candidate loop of `getActivityPhotos` (src/server.js lines
277-282), instrumented with the trace of issued (query, count) calls:
each candidate is fetched with count 1 until one returns a photo. -/
def runActivitySearch (fetch : String → ℕ → List Photo) :
    List String → List (String × ℕ) × Option Photo
  | [] => ([], none)
  | q :: rest =>
    match fetch q 1 with
    | [] =>
      let r := runActivitySearch fetch rest
      ((q, 1) :: r.1, r.2)
    | p :: _ => ([(q, 1)], some p)

/-- `getActivityPhotos` (src/server.js lines 247-289): the first photo of
the first candidate query with a non-empty fetch result, `null` when all
candidates are exhausted. -/
def getActivityPhotos (fetch : String → ℕ → List Photo)
    (destination activity : String) (location : Option String) : Option Photo :=
  (runActivitySearch fetch (activityQueryCandidates destination activity location)).2

/-- Spec-side predicate: a valid zero-padded 24-hour `HH:MM` string. -/
def isValidHHMM (s : String) : Bool :=
  match s.toList with
  | [a, b, c, d, e] =>
    a.isDigit && b.isDigit && c == ':' && d.isDigit && e.isDigit
      && decide (dv a * 10 + dv b ≤ 23) && decide (dv d * 10 + dv e ≤ 59)
  | _ => false

/-- The guard of the sanitizer: the raw days list when
`aiData && aiData.days && Array.isArray(aiData.days)` holds, `none`
otherwise. -/
def daysListOf (aiData : JVal) : Option (List JVal) :=
  if truthy aiData then
    match jsGetV aiData "days" with
    | .arr ds => some ds
    | _ => none
  else none

/-- No raw activity entry of day `i` is `null`/`undefined`, so the
sanitizer does not throw on that day. -/
def actsClean (ds : List JVal) (i : ℕ) : Bool :=
  (rawActsOf ds i).all (fun a => !isNullish a)

/-! ### Helper lemmas about the padding loop -/

/-- With enough fuel, the `while` padding loop appends exactly the missing
synthetic slots, indexed from the current length upwards. -/
theorem padLoop_eq_append (mk : ℕ → SActivity) (minA : ℕ) :
    ∀ (fuel : ℕ) (acts : List SActivity), minA - acts.length ≤ fuel →
      padLoop mk minA fuel acts =
        acts ++ (List.range (minA - acts.length)).map (fun t => mk (acts.length + t)) := by
  intro fuel
  induction fuel with
  | zero =>
    intro acts h
    have h0 : minA - acts.length = 0 := Nat.le_zero.mp h
    simp [padLoop, h0]
  | succ fuel ih =>
    intro acts h
    by_cases hlt : acts.length < minA
    · have hfe : minA - acts.length = (minA - (acts.length + 1)) + 1 := by omega
      have hfuel : minA - (acts.length + 1) ≤ fuel := by omega
      have hrec := ih (acts ++ [mk acts.length]) (by simp; omega)
      have hfun : ((fun t => mk (acts.length + t)) ∘ Nat.succ) =
          (fun t => mk (acts.length + 1 + t)) := by
        funext t
        simp only [Function.comp_apply]
        congr 1
        omega
      simp only [padLoop, if_pos hlt]
      rw [hrec]
      simp only [List.length_append, List.length_singleton]
      rw [hfe, List.range_succ_eq_map, List.map_cons, List.map_map, hfun, List.append_assoc,
        List.singleton_append]
      simp
    · have h0 : minA - acts.length = 0 := by omega
      simp [padLoop, hlt, h0]

/-- Closed form of the padding step. -/
theorem padTo_eq_append (mk : ℕ → SActivity) (minA : ℕ) (acts : List SActivity) :
    padTo mk minA acts =
      acts ++ (List.range (minA - acts.length)).map (fun t => mk (acts.length + t)) :=
  padLoop_eq_append mk minA minA acts (Nat.sub_le _ _)

/-- The padding step reaches the requested minimum. -/
theorem padTo_le_length (mk : ℕ → SActivity) (minA : ℕ) (acts : List SActivity) :
    minA ≤ (padTo mk minA acts).length := by
  rw [padTo_eq_append]
  simp only [List.length_append, List.length_map, List.length_range]
  omega

/-- Every element of the padded list is an original slot or a synthetic one. -/
theorem padTo_mem (mk : ℕ → SActivity) (minA : ℕ) (acts : List SActivity)
    (a : SActivity) (h : a ∈ padTo mk minA acts) : a ∈ acts ∨ ∃ k, a = mk k := by
  rw [padTo_eq_append] at h
  rcases List.mem_append.mp h with h1 | h2
  · exact Or.inl h1
  · rcases List.mem_map.mp h2 with ⟨t, _, ht⟩
    exact Or.inr ⟨acts.length + t, ht.symm⟩

/-! ### Helper lemmas about per-activity sanitization -/

/-- A successfully sanitized slot comes from some entry at some index. -/
theorem sanitizeActs_ok_mem (d : String) (m : ℚ) (rd : ℕ → ℚ) :
    ∀ (acts : List JVal) (idx : ℕ) (l : List SActivity),
      sanitizeActs d m rd idx acts = .ok l →
      ∀ s ∈ l, ∃ k a, sanitizeActivity d m (rd k) k a = .ok s := by
  intro acts
  induction acts with
  | nil =>
    intro idx l h s hs
    simp only [sanitizeActs] at h
    cases h
    simp at hs
  | cons a rest ih =>
    intro idx l h s hs
    simp only [sanitizeActs] at h
    cases h1 : sanitizeActivity d m (rd idx) idx a with
    | error e => rw [h1] at h; cases h
    | ok s0 =>
      rw [h1] at h
      cases h2 : sanitizeActs d m rd (idx + 1) rest with
      | error e => rw [h2] at h; cases h
      | ok l0 =>
        rw [h2] at h
        cases h
        rcases List.mem_cons.mp hs with h3 | h3
        · exact ⟨idx, a, h3 ▸ h1⟩
        · exact ih (idx + 1) l0 h2 s h3

/-- Sanitization succeeds on a list with no nullish entries. -/
theorem sanitizeActs_ok_of_clean (d : String) (m : ℚ) (rd : ℕ → ℚ) :
    ∀ (acts : List JVal) (idx : ℕ), (∀ a ∈ acts, isNullish a = false) →
      ∃ l, sanitizeActs d m rd idx acts = .ok l := by
  intro acts
  induction acts with
  | nil => intro idx _; exact ⟨[], rfl⟩
  | cons a rest ih =>
    intro idx hclean
    have ha : isNullish a = false := hclean a (List.mem_cons_self a rest)
    rcases ih (idx + 1) (fun x hx => hclean x (List.mem_cons_of_mem a hx)) with ⟨l0, hl0⟩
    cases hact : sanitizeActivity d m (rd idx) idx a with
    | error e => simp [sanitizeActivity, ha] at hact
    | ok s0 => exact ⟨s0 :: l0, by simp only [sanitizeActs, hact, hl0]⟩

/-! ### Helper lemmas about day construction -/

/-- Inversion of a successful `buildDay`. -/
theorem buildDay_ok (dest : String) (interests : JVal) (mult : ℚ) (pace : String)
    (rng : ℕ → ℕ → ℚ) (startDay : ℕ) (ds : List JVal) (i : ℕ) (day : SDay)
    (h : buildDay dest interests mult pace rng startDay ds i = .ok day) :
    ∃ sActs, sanitizeActs dest mult (rng i) 0 (rawActsOf ds i) = .ok sActs ∧
      day = ⟨formatCivil (startDay + i),
        padTo (defaultSlot dest interests mult (rng i)) (minForPace pace) sActs⟩ := by
  simp only [buildDay] at h
  cases h1 : sanitizeActs dest mult (rng i) 0 (rawActsOf ds i) with
  | error e => rw [h1] at h; cases h
  | ok sActs =>
    rw [h1] at h
    cases h
    exact ⟨sActs, rfl, rfl⟩

/-- A day with no nullish raw entries builds successfully. -/
theorem buildDay_ok_of_clean (dest : String) (interests : JVal) (mult : ℚ) (pace : String)
    (rng : ℕ → ℕ → ℚ) (startDay : ℕ) (ds : List JVal) (i : ℕ)
    (h : actsClean ds i = true) :
    ∃ day, buildDay dest interests mult pace rng startDay ds i = .ok day := by
  have hclean : ∀ a ∈ rawActsOf ds i, isNullish a = false := by
    intro a ha
    have := (List.all_eq_true.mp h) a ha
    simpa using this
  rcases sanitizeActs_ok_of_clean dest mult (rng i) (rawActsOf ds i) 0 hclean with ⟨l, hl⟩
  refine ⟨⟨formatCivil (startDay + i),
    padTo (defaultSlot dest interests mult (rng i)) (minForPace pace) l⟩, ?_⟩
  simp only [buildDay, hl]

/-- Inversion of a successful `buildDays`: the result has one entry per
requested day, each produced by `buildDay` at the corresponding index. -/
theorem buildDays_ok (dest : String) (interests : JVal) (mult : ℚ) (pace : String)
    (rng : ℕ → ℕ → ℚ) (startDay : ℕ) (ds : List JVal) :
    ∀ (k i : ℕ) (l : List SDay),
      buildDays dest interests mult pace rng startDay ds k i = .ok l →
      l.length = k ∧ ∀ j (hj : j < l.length),
        buildDay dest interests mult pace rng startDay ds (i + j) = .ok (l.get ⟨j, hj⟩) := by
  intro k
  induction k with
  | zero =>
    intro i l h
    simp only [buildDays] at h
    cases h
    exact ⟨rfl, fun j hj => absurd hj (by simp)⟩
  | succ k ih =>
    intro i l h
    simp only [buildDays] at h
    cases h1 : buildDay dest interests mult pace rng startDay ds i with
    | error e => rw [h1] at h; cases h
    | ok d =>
      rw [h1] at h
      cases h2 : buildDays dest interests mult pace rng startDay ds k (i + 1) with
      | error e => rw [h2] at h; cases h
      | ok rest =>
        rw [h2] at h
        cases h
        rcases ih (i + 1) rest h2 with ⟨hlen, hget⟩
        constructor
        · simp [hlen]
        · intro j hj
          cases j with
          | zero => simpa using h1
          | succ j =>
            have hj2 : j < rest.length := by simp at hj; omega
            have := hget j hj2
            have harith : i + (j + 1) = (i + 1) + j := by omega
            rw [harith]
            simpa using this

/-- Day construction succeeds when each of the requested days is clean. -/
theorem buildDays_ok_of_clean (dest : String) (interests : JVal) (mult : ℚ) (pace : String)
    (rng : ℕ → ℕ → ℚ) (startDay : ℕ) (ds : List JVal) :
    ∀ (k i : ℕ), (∀ j, j < k → actsClean ds (i + j) = true) →
      ∃ l, buildDays dest interests mult pace rng startDay ds k i = .ok l := by
  intro k
  induction k with
  | zero => intro i _; exact ⟨[], rfl⟩
  | succ k ih =>
    intro i hclean
    rcases buildDay_ok_of_clean dest interests mult pace rng startDay ds i
        (by simpa using hclean 0 (Nat.succ_pos k)) with ⟨d, hd⟩
    rcases ih (i + 1) (fun j hj => by
      have hcj := hclean (j + 1) (by omega)
      rwa [show i + 1 + j = i + (j + 1) from by omega]) with ⟨rest, hrest⟩
    exact ⟨d :: rest, by simp only [buildDays, hd, hrest]⟩

/-! ### Helper lemmas about the sanitizer entry point -/

/-- When the guard rejects, the sanitizer returns null. -/
theorem sanitize_eq_none (aiData : JVal) (dest : String) (N : ℕ) (budget : String)
    (interests : JVal) (pace : String) (s? e? : Option String) (nowDay : ℕ)
    (rng : ℕ → ℕ → ℚ) (h : daysListOf aiData = none) :
    sanitizeAIItinerary aiData dest N budget interests pace s? e? nowDay rng = .ok none := by
  unfold sanitizeAIItinerary
  unfold daysListOf at h
  by_cases ht : truthy aiData
  · rw [ht] at h ⊢
    simp only [Bool.not_true, Bool.false_eq_true, if_false]
    cases hv : jsGetV aiData "days" with
    | arr ds => rw [hv] at h; cases h
    | null => rfl
    | undefined => rfl
    | bool b => rfl
    | num q => rfl
    | str s => rfl
    | obj fields => rfl
  · simp only [Bool.not_eq_true] at ht
    rw [ht]
    rfl

/-- With the guard satisfied, the sanitizer is the day-building loop. -/
theorem sanitize_eq_build (aiData : JVal) (dest : String) (N : ℕ) (budget : String)
    (interests : JVal) (pace : String) (s? e? : Option String) (nowDay : ℕ)
    (rng : ℕ → ℕ → ℚ) (ds : List JVal) (hds : daysListOf aiData = some ds) :
    sanitizeAIItinerary aiData dest N budget interests pace s? e? nowDay rng =
      match buildDays dest interests (budgetMult budget) pace rng (startDayOf s? nowDay)
          ds N 0 with
      | .error e => .error e
      | .ok l => .ok (some ⟨l⟩) := by
  unfold daysListOf at hds
  by_cases ht : truthy aiData
  · rw [ht] at hds
    simp only [if_pos rfl] at hds
    unfold sanitizeAIItinerary
    rw [ht]
    simp only [Bool.not_true, Bool.false_eq_true, if_false]
    revert hds
    cases hv : jsGetV aiData "days" with
    | arr ds2 => intro hds; cases hds; rfl
    | null => intro hds; cases hds
    | undefined => intro hds; cases hds
    | bool b => intro hds; cases hds
    | num q => intro hds; cases hds
    | str s => intro hds; cases hds
    | obj fields => intro hds; cases hds
  · simp only [Bool.not_eq_true] at ht
    rw [ht] at hds
    simp at hds

/-- Inversion of a successful sanitizer run. -/
theorem sanitize_ok_inv (aiData : JVal) (dest : String) (N : ℕ) (budget : String)
    (interests : JVal) (pace : String) (s? e? : Option String) (nowDay : ℕ)
    (rng : ℕ → ℕ → ℚ) (it : Itin)
    (h : sanitizeAIItinerary aiData dest N budget interests pace s? e? nowDay rng = .ok (some it)) :
    ∃ ds, daysListOf aiData = some ds ∧
      buildDays dest interests (budgetMult budget) pace rng (startDayOf s? nowDay) ds N 0 =
        .ok it.days := by
  cases hds : daysListOf aiData with
  | none =>
    rw [sanitize_eq_none aiData dest N budget interests pace s? e? nowDay rng hds] at h
    cases h
  | some ds =>
    rw [sanitize_eq_build aiData dest N budget interests pace s? e? nowDay rng ds hds] at h
    refine ⟨ds, rfl, ?_⟩
    revert h
    cases hb : buildDays dest interests (budgetMult budget) pace rng (startDayOf s? nowDay)
        ds N 0 with
    | error e => intro h; cases h
    | ok l => intro h; cases h; rfl

/-- A clean raw draft with a days array sanitizes successfully into the
requested number of days. -/
theorem sanitize_ok_of_clean (aiData : JVal) (dest : String) (N : ℕ) (budget : String)
    (interests : JVal) (pace : String) (s? e? : Option String) (nowDay : ℕ)
    (rng : ℕ → ℕ → ℚ) (ds : List JVal) (hds : daysListOf aiData = some ds)
    (hc : ∀ i, i < N → actsClean ds i = true) :
    ∃ it, sanitizeAIItinerary aiData dest N budget interests pace s? e? nowDay rng =
        .ok (some it) ∧ it.days.length = N := by
  rcases buildDays_ok_of_clean dest interests (budgetMult budget) pace rng
      (startDayOf s? nowDay) ds N 0 (fun j hj => by simpa using hc j hj) with ⟨l, hl⟩
  have hlen := (buildDays_ok dest interests (budgetMult budget) pace rng
      (startDayOf s? nowDay) ds N 0 l hl).1
  refine ⟨⟨l⟩, ?_, hlen⟩
  rw [sanitize_eq_build aiData dest N budget interests pace s? e? nowDay rng ds hds, hl]

/-! ### Validity of sanitized times -/

/-- Every zero-padded in-range hour/minute pair renders as a valid
`HH:MM` string. -/
theorem pad_hhmm_valid : ∀ h : ℕ, h < 24 → ∀ m : ℕ, m < 60 →
    isValidHHMM (pad2 h ++ ":" ++ pad2 m) = true := by decide

/-- A time accepted by `sanitizeTime` is a valid zero-padded `HH:MM`. -/
theorem sanitizeTime_valid (v : JVal) (t : String) (h : sanitizeTime v = some t) :
    isValidHHMM t = true := by
  cases v with
  | str s =>
    simp only [sanitizeTime] at h
    by_cases hs : (s == "") = true
    · rw [if_pos hs] at h; cases h
    · rw [if_neg hs] at h
      cases hscan : timeScan s.toList with
      | none => rw [hscan] at h; cases h
      | some hm =>
        obtain ⟨hh, mm⟩ := hm
        simp only [hscan] at h
        by_cases hb : (hh ≤ 23 && mm ≤ 59) = true
        · rw [if_pos hb] at h
          cases h
          simp only [Bool.and_eq_true, decide_eq_true_eq] at hb
          exact pad_hhmm_valid hh (by omega) mm (by omega)
        · rw [if_neg hb] at h; cases h
  | null => cases h
  | undefined => cases h
  | bool b => cases h
  | num q => cases h
  | arr l => cases h
  | obj fields => cases h

/-- The time of a sanitized slot is either a valid `HH:MM` from the raw
draft or the generated fallback for its index. -/
theorem sanitizeActivity_time (d : String) (m r : ℚ) (idx : ℕ) (a : JVal) (s : SActivity)
    (h : sanitizeActivity d m r idx a = .ok s) :
    isValidHHMM s.time = true ∨ s.time = fallbackTime idx := by
  simp only [sanitizeActivity] at h
  by_cases hn : isNullish a = true
  · rw [if_pos hn] at h; cases h
  · rw [if_neg hn] at h
    cases h
    cases ht : sanitizeTime (jsGetV a "time") with
    | none =>
      right
      simp [jsOrString, ht]
    | some t0 =>
      by_cases ht0 : (t0 == "") = true
      · right
        simp [jsOrString, ht, ht0]
      · left
        have hv := sanitizeTime_valid _ _ ht
        simpa [jsOrString, ht, ht0] using hv

/-! ### Date parsing helpers -/

/-- A parsable start date string is what the sanitizer starts from. -/
theorem startDayOf_parse (s : String) (S nowDay : ℕ) (h : parseDateISO s = some S) :
    startDayOf (some s) nowDay = S := by
  by_cases hs : (s == "") = true
  · exfalso
    have hs2 : s = "" := by simpa using hs
    rw [hs2, show parseDateISO "" = none from rfl] at h
    cases h
  · simp only [startDayOf, if_neg hs, h, Option.getD_some]

/-- An unparsable start date string falls back to the current day. -/
theorem startDayOf_noparse (s : String) (nowDay : ℕ) (h : parseDateISO s = none) :
    startDayOf (some s) nowDay = nowDay := by
  by_cases hs : (s == "") = true
  · simp only [startDayOf, if_pos hs]
  · simp only [startDayOf, if_neg hs, h, Option.getD_none]

/-! ### Claim C1 -/

/-- C1: for every raw draft whose days field is a list and every request
with parsable start date S and requested span N, the sanitized itinerary
returned by `sanitizeAIItinerary` has exactly N day plans, and the i-th
day is dated S plus i days — independent of the number of raw day-groups
and of any dates embedded in the raw draft (the raw day date field is
never read). -/
theorem c1_day_count_and_dates (aiData : JVal) (dest : String) (N : ℕ) (budget : String)
    (interests : JVal) (pace : String) (s : String) (e? : Option String) (nowDay : ℕ)
    (rng : ℕ → ℕ → ℚ) (S : ℕ) (it : Itin)
    (hparse : parseDateISO s = some S)
    (hok : sanitizeAIItinerary aiData dest N budget interests pace (some s) e? nowDay rng =
      .ok (some it)) :
    it.days.length = N ∧
      ∀ i (hi : i < it.days.length), (it.days.get ⟨i, hi⟩).date = formatCivil (S + i) := by
  rcases sanitize_ok_inv aiData dest N budget interests pace (some s) e? nowDay rng it hok
    with ⟨ds, _, hbuild⟩
  rw [startDayOf_parse s S nowDay hparse] at hbuild
  have hb := buildDays_ok dest interests (budgetMult budget) pace rng S ds N 0 it.days hbuild
  refine ⟨hb.1, fun i hi => ?_⟩
  have hday := hb.2 i hi
  rw [Nat.zero_add] at hday
  rcases buildDay_ok dest interests (budgetMult budget) pace rng S ds i _ hday
    with ⟨sActs, _, heq⟩
  rw [heq]

/-- Witness for C1 at a concrete raw draft carrying a bogus embedded date:
the two sanitized days are dated from the requested 2024-06-01
(day number 739343), not from the draft. -/
theorem c1_witness :
    ∃ it, sanitizeAIItinerary
        (.obj [("days", .arr [.obj [("date", .str "1999-01-01"), ("activities", .arr [])]])])
        "Paris" 2 "mid-range" .null "relaxed" (some "2024-06-01") none 0 (fun _ _ => 0) =
        .ok (some it) ∧
      (it.days.length = 2 ∧
        ∀ i (hi : i < it.days.length), (it.days.get ⟨i, hi⟩).date = formatCivil (739343 + i)) := by
  refine ⟨_, rfl, ?_⟩
  exact c1_day_count_and_dates
    (.obj [("days", .arr [.obj [("date", .str "1999-01-01"), ("activities", .arr [])]])])
    "Paris" 2 "mid-range" .null "relaxed" "2024-06-01" none 0 (fun _ _ => 0) 739343 _
    (by decide) rfl

/-! ### Claim C2 -/

/-- C2: every day of a sanitized itinerary holds at least 2 activities for
a relaxed pace, 4 for active, and 3 for moderate or any other pace value,
even when the raw draft supplied none; the missing activities are the
synthetic slots appended from the default-activity table. -/
theorem c2_minimum_activities (aiData : JVal) (dest : String) (N : ℕ) (budget : String)
    (interests : JVal) (pace : String) (s? e? : Option String) (nowDay : ℕ)
    (rng : ℕ → ℕ → ℚ) (it : Itin)
    (hok : sanitizeAIItinerary aiData dest N budget interests pace s? e? nowDay rng =
      .ok (some it)) :
    ∀ j (hj : j < it.days.length),
      (if pace == "relaxed" then 2 else if pace == "active" then 4 else 3) ≤
        (it.days.get ⟨j, hj⟩).activities.length ∧
      ∃ sActs, (it.days.get ⟨j, hj⟩).activities = sActs ++
        (List.range (minForPace pace - sActs.length)).map
          (fun t => defaultSlot dest interests (budgetMult budget) (rng j) (sActs.length + t)) := by
  rcases sanitize_ok_inv aiData dest N budget interests pace s? e? nowDay rng it hok
    with ⟨ds, _, hbuild⟩
  have hb := buildDays_ok dest interests (budgetMult budget) pace rng
    (startDayOf s? nowDay) ds N 0 it.days hbuild
  intro j hj
  have hday := hb.2 j hj
  rw [Nat.zero_add] at hday
  rcases buildDay_ok dest interests (budgetMult budget) pace rng
      (startDayOf s? nowDay) ds j _ hday with ⟨sActs, _, heq⟩
  constructor
  · show minForPace pace ≤ _
    rw [heq]
    exact padTo_le_length _ _ _
  · refine ⟨sActs, ?_⟩
    rw [heq]
    exact padTo_eq_append _ _ _

/-- Witness for C2: a draft with an empty days list, sanitized for one
relaxed day, is padded up to two synthetic activities. -/
theorem c2_witness :
    ∃ it, sanitizeAIItinerary (.obj [("days", .arr [])]) "Paris" 1 "mid-range" .null "relaxed"
        (some "2024-06-01") none 0 (fun _ _ => 0) = .ok (some it) ∧
      ∀ j (hj : j < it.days.length),
        (2:ℕ) ≤ (it.days.get ⟨j, hj⟩).activities.length ∧
        ∃ sActs, (it.days.get ⟨j, hj⟩).activities = sActs ++
          (List.range (minForPace "relaxed" - sActs.length)).map
            (fun t => defaultSlot "Paris" .null (budgetMult "mid-range")
              ((fun _ _ => (0:ℚ)) j) (sActs.length + t)) := by
  refine ⟨_, rfl, ?_⟩
  exact c2_minimum_activities (.obj [("days", .arr [])]) "Paris" 1 "mid-range" .null "relaxed"
    (some "2024-06-01") none 0 (fun _ _ => 0) _ rfl

/-! ### Claim C7 -/

/-- C7 counterexample: the claim that every sanitized activity time is a
valid zero-padded 24-hour `HH:MM` fails on the code: an activity with no
usable raw time in slot 0 receives the generated fallback "9:00", whose
hour is not zero-padded. -/
theorem c7_counterexample :
    ∃ it, sanitizeAIItinerary (.obj [("days", .arr [.obj [("activities", .arr [.obj []])]])])
        "Paris" 1 "mid-range" .null "relaxed" (some "2024-06-01") none 0 (fun _ _ => 0) =
        .ok (some it) ∧
      ∃ day ∈ it.days, ∃ a ∈ day.activities, a.time = "9:00" ∧ isValidHHMM a.time = false := by
  refine ⟨_, rfl, ?_⟩
  decide

/-- C7 as amended: every activity time in a sanitized itinerary is either
a valid zero-padded 24-hour `HH:MM` validated from the raw draft, or a
generated fallback time of the form `(9 + 2k):00`, which is not
zero-padded for k = 0 and whose hour exceeds 23 for k ≥ 8. -/
theorem c7_time_format (aiData : JVal) (dest : String) (N : ℕ) (budget : String)
    (interests : JVal) (pace : String) (s? e? : Option String) (nowDay : ℕ)
    (rng : ℕ → ℕ → ℚ) (it : Itin)
    (hok : sanitizeAIItinerary aiData dest N budget interests pace s? e? nowDay rng =
      .ok (some it)) :
    ∀ day ∈ it.days, ∀ a ∈ day.activities,
      isValidHHMM a.time = true ∨ ∃ k, a.time = fallbackTime k := by
  rcases sanitize_ok_inv aiData dest N budget interests pace s? e? nowDay rng it hok
    with ⟨ds, _, hbuild⟩
  have hb := buildDays_ok dest interests (budgetMult budget) pace rng
    (startDayOf s? nowDay) ds N 0 it.days hbuild
  intro day hday a ha
  rcases List.mem_iff_get.mp hday with ⟨⟨j, hj⟩, hget⟩
  have hdayok := hb.2 j hj
  rw [Nat.zero_add] at hdayok
  rcases buildDay_ok dest interests (budgetMult budget) pace rng
      (startDayOf s? nowDay) ds j _ hdayok with ⟨sActs, hsan, heq⟩
  have ha2 : a ∈ padTo (defaultSlot dest interests (budgetMult budget) (rng j))
      (minForPace pace) sActs := by
    rw [← hget, heq] at ha
    exact ha
  rcases padTo_mem _ _ _ _ ha2 with hmem | ⟨k, hk⟩
  · rcases sanitizeActs_ok_mem dest (budgetMult budget) (rng j) (rawActsOf ds j) 0 sActs
        hsan a hmem with ⟨k, v, hactok⟩
    rcases sanitizeActivity_time dest (budgetMult budget) (rng j k) k v a hactok with hv | hf
    · exact Or.inl hv
    · exact Or.inr ⟨k, hf⟩
  · exact Or.inr ⟨k, by rw [hk]; rfl⟩

/-- Witness for the amended C7: a draft with one valid raw time is
sanitized and every resulting time is valid or a fallback. -/
theorem c7_witness :
    ∃ it, sanitizeAIItinerary
        (.obj [("days", .arr [.obj [("activities", .arr [.obj [("time", .str "14:30")]])]])])
        "Paris" 1 "mid-range" .null "relaxed" (some "2024-06-01") none 0 (fun _ _ => 0) =
        .ok (some it) ∧
      ∀ day ∈ it.days, ∀ a ∈ day.activities,
        isValidHHMM a.time = true ∨ ∃ k, a.time = fallbackTime k := by
  refine ⟨_, rfl, ?_⟩
  exact c7_time_format
    (.obj [("days", .arr [.obj [("activities", .arr [.obj [("time", .str "14:30")]])]])])
    "Paris" 1 "mid-range" .null "relaxed" (some "2024-06-01") none 0 (fun _ _ => 0) _ rfl

/-! ### Claim C10 -/

/-- C10 counterexample: the claim that the sanitizer never throws for a
draft whose days field is a list fails on the code: a `null` entry inside
an activities array makes the JS code read `.time` of `null`, which
throws a TypeError (modelled by `.error ()`). -/
theorem c10_counterexample :
    sanitizeAIItinerary (.obj [("days", .arr [.obj [("activities", .arr [.null])]])])
      "Paris" 1 "mid-range" .null "moderate" (some "2024-06-01") none 0 (fun _ _ => 0) =
      .error () := rfl

/-- C10 as amended: the sanitizer returns null exactly when the raw draft
or its days field is missing or not a list; when the days field is a list
it never returns null, and provided no activity entry of the requested
days is `null`/`undefined` it returns an N-day itinerary without
throwing; when the start date string cannot be parsed, day 0 of any
returned itinerary is dated with the current date. -/
theorem c10_guard_and_fallback (aiData : JVal) (dest : String) (N : ℕ) (budget : String)
    (interests : JVal) (pace : String) (s? e? : Option String) (nowDay : ℕ)
    (rng : ℕ → ℕ → ℚ) :
    (daysListOf aiData = none →
      sanitizeAIItinerary aiData dest N budget interests pace s? e? nowDay rng = .ok none) ∧
    (∀ ds, daysListOf aiData = some ds →
      sanitizeAIItinerary aiData dest N budget interests pace s? e? nowDay rng ≠ .ok none) ∧
    (∀ ds, daysListOf aiData = some ds → (∀ i, i < N → actsClean ds i = true) →
      ∃ it, sanitizeAIItinerary aiData dest N budget interests pace s? e? nowDay rng =
          .ok (some it) ∧ it.days.length = N) ∧
    (∀ s, s? = some s → parseDateISO s = none →
      ∀ it, sanitizeAIItinerary aiData dest N budget interests pace s? e? nowDay rng =
          .ok (some it) →
        ∀ h0 : 0 < it.days.length, (it.days.get ⟨0, h0⟩).date = formatCivil nowDay) := by
  refine ⟨sanitize_eq_none aiData dest N budget interests pace s? e? nowDay rng, ?_, ?_, ?_⟩
  · intro ds hds
    rw [sanitize_eq_build aiData dest N budget interests pace s? e? nowDay rng ds hds]
    cases buildDays dest interests (budgetMult budget) pace rng (startDayOf s? nowDay)
        ds N 0 with
    | error e => simp
    | ok l => simp
  · intro ds hds hc
    exact sanitize_ok_of_clean aiData dest N budget interests pace s? e? nowDay rng ds hds hc
  · intro s hs hparse it hok h0
    subst hs
    rcases sanitize_ok_inv aiData dest N budget interests pace (some s) e? nowDay rng it hok
      with ⟨ds, _, hbuild⟩
    rw [startDayOf_noparse s nowDay hparse] at hbuild
    have hb := buildDays_ok dest interests (budgetMult budget) pace rng nowDay ds N 0
      it.days hbuild
    have hdayok := hb.2 0 h0
    rw [Nat.zero_add] at hdayok
    rcases buildDay_ok dest interests (budgetMult budget) pace rng nowDay ds 0 _ hdayok
      with ⟨sActs, _, heq⟩
    rw [heq, Nat.add_zero]

/-- Witness for the amended C10: a numeric draft yields null; a draft with
an empty days list and an unparsable start date yields a 3-day itinerary
whose first day carries the current date (day number 7). -/
theorem c10_witness :
    (sanitizeAIItinerary (.num 5) "Rome" 3 "budget" .null "moderate" none none 0
        (fun _ _ => 0) = .ok none) ∧
    ∃ it, sanitizeAIItinerary (.obj [("days", .arr [])]) "Rome" 3 "budget" .null "moderate"
        (some "not-a-date") none 7 (fun _ _ => 0) = .ok (some it) ∧ it.days.length = 3 ∧
      ∀ h0 : 0 < it.days.length, (it.days.get ⟨0, h0⟩).date = formatCivil 7 := by
  constructor
  · exact (c10_guard_and_fallback (.num 5) "Rome" 3 "budget" .null "moderate" none none 0
      (fun _ _ => 0)).1 rfl
  · obtain ⟨it, hit, hlen⟩ := (c10_guard_and_fallback (.obj [("days", .arr [])]) "Rome" 3
      "budget" .null "moderate" (some "not-a-date") none 7 (fun _ _ => 0)).2.2.1 [] rfl
      (fun i _ => rfl)
    refine ⟨it, hit, hlen, fun h0 => ?_⟩
    exact (c10_guard_and_fallback (.obj [("days", .arr [])]) "Rome" 3 "budget" .null
      "moderate" (some "not-a-date") none 7 (fun _ _ => 0)).2.2.2 "not-a-date" rfl
      (by decide) it hit h0

/-! ### Claim C8 -/

/-- C8: when the extracted generative object is missing the days key or
its days value is not a list, the generation route does not raise: it
falls back to the deterministic mock generator, which produces exactly N
days, each holding the non-zero pace-determined number of activities. -/
theorem c8_fallback_to_mock (aiItinerary : JVal) (dest : String) (days : ℕ)
    (interests : JVal) (budget pace : String) (s? : Option String) (nowDay : ℕ)
    (rng : ℕ → ℕ → ℚ) (h : daysListOf aiItinerary = none) :
    routeGenerateItinerary aiItinerary dest days interests budget pace s? nowDay rng =
      mockItinerary dest days interests budget pace s? nowDay ∧
    (mockItinerary dest days interests budget pace s? nowDay).days.length = days ∧
    ∀ d ∈ (mockItinerary dest days interests budget pace s? nowDay).days,
      d.activities.length = actsPerDay pace ∧ 0 < d.activities.length := by
  have hs := sanitize_eq_none aiItinerary dest days budget interests pace s? none nowDay rng h
  refine ⟨?_, ?_, ?_⟩
  · unfold routeGenerateItinerary
    rw [hs]
  · simp [mockItinerary]
  · intro d hd
    simp only [mockItinerary] at hd
    rcases List.mem_map.mp hd with ⟨i, _, hi⟩
    rw [← hi]
    constructor
    · simp [mockDay]
    · simp only [mockDay, List.length_map, List.length_range]
      by_cases h1 : (pace == "relaxed") = true
      · simp [actsPerDay, h1]
      · by_cases h2 : (pace == "active") = true
        · simp [actsPerDay, h1, h2]
        · simp [actsPerDay, h1, h2]

/-- Witness for C8: an object without a days key falls back to the mock
itinerary with 2 days of 3 activities each. -/
theorem c8_witness :
    routeGenerateItinerary (.obj [("note", .str "no days here")]) "Rome" 2 .null "mid-range"
        "moderate" (some "2024-06-01") 0 (fun _ _ => 0) =
      mockItinerary "Rome" 2 .null "mid-range" "moderate" (some "2024-06-01") 0 ∧
    (mockItinerary "Rome" 2 .null "mid-range" "moderate" (some "2024-06-01") 0).days.length
        = 2 ∧
    ∀ d ∈ (mockItinerary "Rome" 2 .null "mid-range" "moderate" (some "2024-06-01") 0).days,
      d.activities.length = actsPerDay "moderate" ∧ 0 < d.activities.length :=
  c8_fallback_to_mock (.obj [("note", .str "no days here")]) "Rome" 2 .null "mid-range"
    "moderate" (some "2024-06-01") 0 (fun _ _ => 0) rfl

/-! ### Claim C3 -/

/-- C3 counterexample: the claim quantifies over every multiplier, but for
a negative multiplier the "varies" branch returns a negative value:
with multiplier -1 and random draw 9/10 the result is floor(-45) + 10. -/
theorem c3_counterexample :
    sanitizeCost (.str "varies") (-1) (9 / 10) < 0 ∧
      (0:ℚ) ≤ 9 / 10 ∧ (9:ℚ) / 10 < 1 := by
  refine ⟨?_, by norm_num, by norm_num⟩
  have h1 : sanitizeCost (.str "varies") (-1) (9 / 10) =
      ratFloor ((9 / 10 : ℚ) * 50 * (-1)) + 10 := rfl
  rw [h1, show ((9 / 10 : ℚ) * 50 * (-1)) = ((-45 : ℤ) : ℚ) by norm_num,
    show ratFloor (((-45 : ℤ) : ℚ)) = ⌊(((-45 : ℤ) : ℚ))⌋ from Rat.floor_def.symm,
    Int.floor_intCast]
  norm_num

/-- C3 as amended: for every input value of any type and every
nonnegative multiplier and random draw, `sanitizeCost` returns a
nonnegative integer. -/
theorem c3_cost_nonneg (cost : JVal) (mult r : ℚ) (hm : 0 ≤ mult) (hr : 0 ≤ r) :
    0 ≤ sanitizeCost cost mult r := by
  have hfl : ∀ q : ℚ, 0 ≤ q → 0 ≤ ratFloor q := by
    intro q hq
    rw [show ratFloor q = ⌊q⌋ from Rat.floor_def.symm]
    exact Int.floor_nonneg.mpr hq
  have h30 : 0 ≤ ratFloor (r * 30 * mult) + 15 := by
    have := hfl (r * 30 * mult) (by positivity)
    omega
  cases cost with
  | num q => exact le_max_left 0 _
  | str s =>
    simp only [sanitizeCost]
    split
    · exact le_refl 0
    · split
      · exact le_max_left 0 _
      · split
        · have := hfl (r * 50 * mult) (by positivity)
          omega
        · exact h30
  | null => exact h30
  | undefined => exact h30
  | bool b => exact h30
  | arr l => exact h30
  | obj fields => exact h30

/-- Witness for the amended C3 at the inputs the spec quotes: a "free"
string, a currency string and a plain number all yield a nonnegative
integer cost. -/
theorem c3_witness :
    0 ≤ sanitizeCost (.str "free guided walk") 1 0 ∧
    0 ≤ sanitizeCost (.str "$45") 1 (1 / 2) ∧
    0 ≤ sanitizeCost (.num 10) 2 0 :=
  ⟨c3_cost_nonneg (.str "free guided walk") 1 0 (by norm_num) le_rfl,
    c3_cost_nonneg (.str "$45") 1 (1 / 2) (by norm_num) (by norm_num),
    c3_cost_nonneg (.num 10) 2 0 (by norm_num) le_rfl⟩

/-! ### Claim C6 -/

/-- C6: on each call the rate limiter filters the stored timestamps of the
subject down to those within the trailing window; if the remaining count
is at or above the limit it returns false with the stored map unchanged,
otherwise it returns true and stores the pruned list with the current time
appended, leaving every other subject untouched. -/
theorem c6_rate_limiter (requests : String → List ℤ) (userId : String) (now : ℤ) :
    (rlMaxRequests ≤ ((requests userId).filter (fun t => now - t < rlWindowMs)).length →
      rlIsAllowed requests userId now = (false, requests)) ∧
    (((requests userId).filter (fun t => now - t < rlWindowMs)).length < rlMaxRequests →
      (rlIsAllowed requests userId now).1 = true ∧
      (rlIsAllowed requests userId now).2 userId =
        (requests userId).filter (fun t => now - t < rlWindowMs) ++ [now] ∧
      ∀ u, u ≠ userId → (rlIsAllowed requests userId now).2 u = requests u) := by
  constructor
  · intro h
    simp only [rlIsAllowed, if_pos h]
  · intro h
    have hn : ¬ rlMaxRequests ≤
        ((requests userId).filter (fun t => now - t < rlWindowMs)).length := by omega
    simp only [rlIsAllowed, if_neg hn]
    exact ⟨trivial, by simp, fun u hu => by simp [hu]⟩

/-- Witness for C6: a first call for a fresh subject is admitted and
recorded. -/
theorem c6_witness :
    (rlIsAllowed (fun _ => []) "alice" 1000).1 = true ∧
    (rlIsAllowed (fun _ => []) "alice" 1000).2 "alice" = [1000] := by
  have h := (c6_rate_limiter (fun _ => []) "alice" 1000).2 (by decide)
  exact ⟨h.1, by simpa using h.2.1⟩

/-! ### Claim C9 -/

/-- C9 counterexample: with only Pexels configured and count 3, a single
query variant is tried, yet the issued call requests ceil(3/3) = 1 photo,
not ceil(3/1) = 3 — the divisor in the source is the constant 3, not the
number of variants actually tried. -/
theorem c9_counterexample :
    variantsTried ⟨false, true, false⟩ "Paris" none 3 = 1 ∧
    planPhotoCalls ⟨false, true, false⟩ "Paris" none 3 = [⟨"pexels", "Paris", 1⟩] ∧
    ∃ c ∈ planPhotoCalls ⟨false, true, false⟩ "Paris" none 3,
      c.countArg ≠ ceilDiv 3 (variantsTried ⟨false, true, false⟩ "Paris" none 3) := by
  refine ⟨rfl, rfl, ?_⟩
  decide

/-- C9 as amended: every per-provider search call issued by
`fetchPhotosForDestination` requests exactly ceil(count/3) photos — the
divisor is the fixed constant 3, regardless of the number of query
variants actually tried. -/
theorem c9_per_call_count (cfg : PhotoCfg) (dest : String) (activityType : Option String)
    (count : ℕ) :
    ∀ c ∈ planPhotoCalls cfg dest activityType count, c.countArg = ceilDiv count 3 := by
  have hceil : ceilDiv count 3 = (count + 2) / 3 := by
    unfold ceilDiv
    omega
  rcases cfg with ⟨u, p, x⟩
  cases u <;> cases p <;> cases x <;> intro c hc <;> rw [hceil] <;>
    simp only [planPhotoCalls, if_true, if_false, Bool.false_eq_true, List.nil_append,
      List.append_nil, List.mem_append, List.mem_cons, List.not_mem_nil, or_false,
      false_or] at hc <;>
    (rcases hc with ((rfl | rfl) | rfl) | rfl <;> rfl)

/-- Witness for the amended C9: with all three providers configured and
count 5, the first issued call requests ceil(5/3) = 2 photos. -/
theorem c9_witness :
    (⟨"unsplash", "Paris museum", 2⟩ : PlannedCall) ∈
      planPhotoCalls ⟨true, true, true⟩ "Paris" (some "museum") 5 ∧
    (⟨"unsplash", "Paris museum", 2⟩ : PlannedCall).countArg = ceilDiv 5 3 :=
  ⟨by decide,
    c9_per_call_count ⟨true, true, true⟩ "Paris" (some "museum") 5 _ (by decide)⟩

/-! ### Claim C4 -/

/-- C4 counterexample: the candidate loop of `getActivityPhotos` issues
every fetch with count 1 (not 2), and when every candidate yields no
photos it returns null (not an empty list): at a concrete activity with a
location hint and a fetcher that always returns nothing, all issued calls
carry count 1 and the result is `none`. -/
theorem c4_counterexample :
    (runActivitySearch (fun _ _ => [])
        (activityQueryCandidates "Paris" "museum tour" (some "Louvre"))).1 ≠ [] ∧
    (∀ c ∈ (runActivitySearch (fun _ _ => [])
        (activityQueryCandidates "Paris" "museum tour" (some "Louvre"))).1, c.2 = 1) ∧
    ¬ (∀ c ∈ (runActivitySearch (fun _ _ => [])
        (activityQueryCandidates "Paris" "museum tour" (some "Louvre"))).1, c.2 = 2) ∧
    getActivityPhotos (fun _ _ => []) "Paris" "museum tour" (some "Louvre") = none := by
  decide

/-- The candidate loop issues (query, 1) calls following the candidate
order, stopping at the first query whose fetch is non-empty, and the
returned photo is the head of that first non-empty result. -/
theorem runActivitySearch_spec (fetch : String → ℕ → List Photo) :
    ∀ qs : List String,
      (∀ c ∈ (runActivitySearch fetch qs).1, c.2 = 1) ∧
      (runActivitySearch fetch qs).1.map Prod.fst =
        qs.take (runActivitySearch fetch qs).1.length ∧
      (runActivitySearch fetch qs).2 =
        (qs.find? (fun q => !(fetch q 1).isEmpty)).bind (fun q => (fetch q 1).head?) := by
  intro qs
  induction qs with
  | nil => exact ⟨fun c hc => absurd hc (List.not_mem_nil c), rfl, rfl⟩
  | cons q rest ih =>
    cases hf : fetch q 1 with
    | nil =>
      have hpred : (fun q => !(fetch q 1).isEmpty) q = false := by
        simp [hf]
      simp only [runActivitySearch, hf]
      refine ⟨?_, ?_, ?_⟩
      · intro c hc
        rcases List.mem_cons.mp hc with rfl | hc2
        · rfl
        · exact ih.1 c hc2
      · simp only [List.map_cons, List.length_cons, List.take_succ_cons, List.cons.injEq]
        exact ⟨by trivial, ih.2.1⟩
      · rw [List.find?_cons_of_neg _ (by simpa using hpred), ih.2.2]
    | cons p ps =>
      have hpred : (fun q => !(fetch q 1).isEmpty) q = true := by
        simp [hf]
      simp only [runActivitySearch, hf]
      refine ⟨?_, ?_, ?_⟩
      · intro c hc
        rcases List.mem_cons.mp hc with rfl | hc2
        · rfl
        · cases hc2
      · rfl
      · rw [List.find?_cons_of_pos _ (by simpa using hpred)]
        simp [hf]

/-- C4 as amended: for every fetcher, activity, location hint and
destination, `getActivityPhotos` tries the candidate queries in order
(location hint, category+destination, activity+destination, destination,
skipping blank entries), issues each fetch with count 1, and returns the
first photo of the first non-empty result — or null when every candidate
is exhausted; it never raises. -/
theorem c4_activity_search (fetch : String → ℕ → List Photo) (dest act : String)
    (loc : Option String) :
    (∀ c ∈ (runActivitySearch fetch (activityQueryCandidates dest act loc)).1, c.2 = 1) ∧
    (runActivitySearch fetch (activityQueryCandidates dest act loc)).1.map Prod.fst =
      (activityQueryCandidates dest act loc).take
        (runActivitySearch fetch (activityQueryCandidates dest act loc)).1.length ∧
    getActivityPhotos fetch dest act loc =
      ((activityQueryCandidates dest act loc).find? (fun q => !(fetch q 1).isEmpty)).bind
        (fun q => (fetch q 1).head?) :=
  runActivitySearch_spec fetch (activityQueryCandidates dest act loc)

/-- A sample fetcher that only knows photos for the query "Louvre". -/
def c4SampleFetch : String → ℕ → List Photo :=
  fun q _ => if q == "Louvre" then [⟨1, "u1", "unsplash"⟩] else []

/-- Witness for the amended C4: with the sample fetcher the location hint
is the first candidate, its fetch is non-empty, and its head photo is
returned. -/
theorem c4_witness :
    getActivityPhotos c4SampleFetch "Paris" "museum tour" (some "Louvre") =
      ((activityQueryCandidates "Paris" "museum tour" (some "Louvre")).find?
        (fun q => !(c4SampleFetch q 1).isEmpty)).bind (fun q => (c4SampleFetch q 1).head?) ∧
    getActivityPhotos c4SampleFetch "Paris" "museum tour" (some "Louvre") =
      some ⟨1, "u1", "unsplash"⟩ :=
  ⟨(c4_activity_search c4SampleFetch "Paris" "museum tour" (some "Louvre")).2.2, by decide⟩

/-! ### Claim C5 -/

/-- Every element kept by the indexed filter satisfies the predicate at
its index in the traversed list. -/
theorem mem_filterWithIdx (f : ℕ → Photo → Bool) :
    ∀ (t : List Photo) (n : ℕ) (p : Photo), p ∈ filterWithIdx f n t →
      ∃ k, f (n + k) p = true ∧ t.get? k = some p := by
  intro t
  induction t with
  | nil =>
    intro n p h
    simp [filterWithIdx] at h
  | cons a rest ih =>
    intro n p h
    simp only [filterWithIdx] at h
    by_cases hf : f n a = true
    · rw [if_pos hf] at h
      rcases List.mem_cons.mp h with rfl | h2
      · exact ⟨0, by simpa using hf, rfl⟩
      · rcases ih (n + 1) p h2 with ⟨k, hk1, hk2⟩
        exact ⟨k + 1, by rwa [show n + (k + 1) = n + 1 + k from by omega], by simpa using hk2⟩
    · rw [if_neg hf] at h
      rcases ih (n + 1) p h with ⟨k, hk1, hk2⟩
      exact ⟨k + 1, by rwa [show n + (k + 1) = n + 1 + k from by omega], by simpa using hk2⟩

/-- The URL-dedup filter keeps pairwise distinct URLs: each kept element
sits at the first index holding its URL, and two distinct first indices
cannot share a URL. -/
theorem pairwise_dedup_aux (l : List Photo) :
    ∀ (t : List Photo) (n : ℕ),
      List.Pairwise (fun p q => p.url ≠ q.url)
        (filterWithIdx (fun i p => l.findIdx (fun q => q.url == p.url) == i) n t) := by
  intro t
  induction t with
  | nil => intro n; simp [filterWithIdx]
  | cons a rest ih =>
    intro n
    simp only [filterWithIdx]
    by_cases hf : (l.findIdx (fun q => q.url == a.url) == n) = true
    · rw [if_pos hf]
      refine List.Pairwise.cons ?_ (ih (n + 1))
      intro b hb hurl
      rcases mem_filterWithIdx _ rest (n + 1) b hb with ⟨k, hk1, _⟩
      rw [beq_iff_eq] at hf hk1
      have hfun : (fun q : Photo => q.url == a.url) = (fun q => q.url == b.url) := by
        funext q
        rw [hurl]
      rw [hfun] at hf
      omega
    · rw [if_neg hf]
      exact ih (n + 1)

/-- C5: the photo list assembled by `fetchPhotosForDestination` — merge,
dedup by URL, shuffle, cap — contains each URL at most once, and every
returned photo is the first occurrence of its URL in the merged list
(the shuffle is an arbitrary permutation). -/
theorem c5_dedup_by_url (shuffle : List Photo → List Photo) (results : List (List Photo))
    (count : ℕ) (hsh : ∀ lp : List Photo, (shuffle lp).Perm lp) :
    (resolvePhotos shuffle results count).Pairwise (fun p q => p.url ≠ q.url) ∧
    ∀ p ∈ resolvePhotos shuffle results count,
      ∃ j, (mergedPhotos results).get? j = some p ∧
        (mergedPhotos results).findIdx (fun q => q.url == p.url) = j := by
  have hperm := hsh (dedupByUrl (mergedPhotos results))
  constructor
  · have hp : (dedupByUrl (mergedPhotos results)).Pairwise (fun p q => p.url ≠ q.url) :=
      pairwise_dedup_aux (mergedPhotos results) (mergedPhotos results) 0
    have hsp : (shuffle (dedupByUrl (mergedPhotos results))).Pairwise
        (fun p q => p.url ≠ q.url) :=
      (List.Perm.pairwise_iff (fun {_ _} h => Ne.symm h) hperm).mpr hp
    exact hsp.sublist (List.take_sublist _ _)
  · intro p hp
    have h1 : p ∈ shuffle (dedupByUrl (mergedPhotos results)) :=
      (List.take_sublist _ _).mem hp
    have h2 : p ∈ dedupByUrl (mergedPhotos results) := hperm.mem_iff.mp h1
    rcases mem_filterWithIdx _ (mergedPhotos results) 0 p h2 with ⟨k, hk1, hk2⟩
    refine ⟨k, hk2, ?_⟩
    simpa using hk1

/-- Witness for C5: two providers both return the photo with URL "urlA";
the identity shuffle keeps order, and the resolved list holds "urlA" once
(its first occurrence, from the first provider) and "urlB" once. -/
theorem c5_witness :
    (resolvePhotos id [[⟨1, "urlA", "unsplash"⟩],
        [⟨2, "urlA", "pexels"⟩, ⟨3, "urlB", "pexels"⟩]] 3).Pairwise
      (fun p q => p.url ≠ q.url) ∧
    ∀ p ∈ resolvePhotos id [[⟨1, "urlA", "unsplash"⟩],
        [⟨2, "urlA", "pexels"⟩, ⟨3, "urlB", "pexels"⟩]] 3,
      ∃ j, (mergedPhotos [[⟨1, "urlA", "unsplash"⟩],
          [⟨2, "urlA", "pexels"⟩, ⟨3, "urlB", "pexels"⟩]]).get? j = some p ∧
        (mergedPhotos [[⟨1, "urlA", "unsplash"⟩],
          [⟨2, "urlA", "pexels"⟩, ⟨3, "urlB", "pexels"⟩]]).findIdx
          (fun q => q.url == p.url) = j :=
  c5_dedup_by_url id [[⟨1, "urlA", "unsplash"⟩],
    [⟨2, "urlA", "pexels"⟩, ⟨3, "urlB", "pexels"⟩]] 3 (fun lp => List.Perm.refl lp)
